import Mathlib

/-!
Shallow embedding of the Tryton module `aeat_rege` (AEAT REGE: Special Regime
for Groups of Entities).

Dates are modelled as proleptic-Gregorian ordinals (`Int`), exactly the value
`datetime.date.toordinal()` would give: `datetime.date.min` is ordinal 1 and
`datetime.date.max` (9999-12-31) is ordinal 3652059.  Records are structures
holding the fields the module reads; the database table of a model is a
`List` of its records; SQL queries become list filters; a raised `UserError`
becomes the `Except.error` branch of an `Except` value.
-/

def dateMin : Int := 1

def dateMax : Int := 3652059

def validDate (d : Int) : Prop := dateMin ≤ d ∧ d ≤ dateMax

instance (d : Int) : Decidable (validDate d) := by
  unfold validDate; infer_instance

/-- Record of the model `aeat.rege.period` (class `REGEPeriod` in `rege.py`):
a taxation period of a REGE.  `type` is the selection `normal`/`advanced`;
`start_date`/`end_date` are nullable dates (`None` meaning no lower/upper
limit). -/
structure REGEPeriod where
  id : Nat
  rege : Nat
  type : String
  start_date : Option Int
  end_date : Option Int
deriving Repr, DecidableEq

/-- Coalesced start used throughout `rege.py`: `Coalesce(start_date, date.min)`. -/
def REGEPeriod.coalStart (p : REGEPeriod) : Int := p.start_date.getD dateMin

/-- Coalesced end used throughout `rege.py`: `Coalesce(end_date, date.max)`. -/
def REGEPeriod.coalEnd (p : REGEPeriod) : Int := p.end_date.getD dateMax

/-- Well-formedness of a stored period record: its dates are real calendar
dates, and the SQL check constraint `start_date < end_date` (which in SQL is
only enforced when both are non-NULL) holds. -/
def REGEPeriod.wf (p : REGEPeriod) : Prop :=
  (∀ s ∈ p.start_date, validDate s) ∧ (∀ e ∈ p.end_date, validDate e) ∧
    (∀ s ∈ p.start_date, ∀ e ∈ p.end_date, s < e)

instance (p : REGEPeriod) : Decidable p.wf := by
  unfold REGEPeriod.wf; infer_instance

/-- Embeds `REGEPeriod.contains_date`:
`(self.start_date or date.min) <= date <= (self.end_date or date.max)`. -/
def REGEPeriod.contains_date (p : REGEPeriod) (d : Int) : Bool :=
  decide (p.coalStart ≤ d) && decide (d ≤ p.coalEnd)

/-- Embeds `REGEPeriod.on_change_with_state`: `open` when today is inside the
period, `scheduled` when the (coalesced) start is still in the future,
`closed` otherwise. -/
def REGEPeriod.on_change_with_state (p : REGEPeriod) (today : Int) : String :=
  if p.contains_date today then "open"
  else if p.start_date.getD dateMin > today then "scheduled"
  else "closed"

/-- Record of the model `aeat.rege.member` (class `REGEMember` in `rege.py`):
a party's membership of a REGE.  `registration_date` is required (non-NULL);
`exit_date` is nullable (`None` meaning still active). -/
structure REGEMember where
  id : Nat
  rege : Nat
  party : Nat
  registration_date : Int
  exit_date : Option Int
deriving Repr, DecidableEq

/-- Coalesced exit date: `Coalesce(exit_date, date.max)` / `exit_date or date.max`. -/
def REGEMember.coalExit (m : REGEMember) : Int := m.exit_date.getD dateMax

/-- Well-formedness of a stored membership record: the dates are real calendar
dates and the SQL check constraint `exit_date > registration_date` holds
whenever `exit_date` is non-NULL. -/
def REGEMember.wf (m : REGEMember) : Prop :=
  validDate m.registration_date ∧ (∀ e ∈ m.exit_date, validDate e) ∧
    (∀ e ∈ m.exit_date, m.registration_date < e)

instance (m : REGEMember) : Decidable m.wf := by
  unfold REGEMember.wf; infer_instance

/-- Embeds `REGEMember.on_change_with_is_active`:
`registration_date <= today <= (exit_date or date.max)`. -/
def REGEMember.on_change_with_is_active (m : REGEMember) (today : Int) : Bool :=
  decide (m.registration_date ≤ today) && decide (today ≤ m.coalExit)

/-- The WHERE clause of the overlap query in `REGEPeriod.check_date_intervals`
(rege.py lines 161-168), evaluated at a candidate row `other` of the table for
the record `p` being validated: same REGE, different id, and the three-disjunct
interval condition on coalesced bounds. -/
def period_overlap_where (other p : REGEPeriod) : Bool :=
  (other.id != p.id) && (other.rege == p.rege) &&
    ((decide (other.coalStart ≤ p.coalStart) && decide (other.coalEnd ≥ p.coalStart)) ||
     (decide (other.coalStart ≤ p.coalEnd) && decide (other.coalEnd ≥ p.coalEnd)) ||
     (decide (other.coalStart ≥ p.coalStart) && decide (other.coalEnd ≤ p.coalEnd)))

def msg_period_overlap : String := "aeat_rege.msg_period_overlap"

def msg_membership_overlap : String := "aeat_rege.msg_membership_overlap"

/-- Embeds `REGEPeriod.check_date_intervals` for one record being validated:
run the overlap query over the table and raise `UserError` (modelled as
`Except.error`) when it returns any row; otherwise return without touching any
state. -/
def REGEPeriod.check_date_intervals (table : List REGEPeriod) (p : REGEPeriod) :
    Except String Unit :=
  let overlaps := (table.filter (fun o => period_overlap_where o p)).map (fun o => o.id)
  if overlaps.isEmpty then Except.ok () else Except.error msg_period_overlap

/-- The WHERE clause of the overlap query in `REGEMember.check_date_intervals`
(rege.py lines 245-252): same party (the REGE is not compared), different id,
and the three-disjunct interval condition with `registration_date` as start
and `Coalesce(exit_date, date.max)` as end. -/
def member_overlap_where (other r : REGEMember) : Bool :=
  (other.id != r.id) && (other.party == r.party) &&
    ((decide (other.registration_date ≤ r.registration_date) &&
        decide (other.coalExit ≥ r.registration_date)) ||
     (decide (other.registration_date ≤ r.coalExit) && decide (other.coalExit ≥ r.coalExit)) ||
     (decide (other.registration_date ≥ r.registration_date) &&
        decide (other.coalExit ≤ r.coalExit)))

/-- Embeds `REGEMember.check_date_intervals` for one record being validated. -/
def REGEMember.check_date_intervals (table : List REGEMember) (r : REGEMember) :
    Except String Unit :=
  let overlaps := (table.filter (fun o => member_overlap_where o r)).map (fun o => o.id)
  if overlaps.isEmpty then Except.ok () else Except.error msg_membership_overlap

/-- Embeds `REGE.on_change_with_is_active` (rege.py lines 58-60): a REGE is
active when any of its periods has state `open`.  `periods` is the REGE's
One2Many `periods` field in its list order. -/
def REGE.on_change_with_is_active (periods : List REGEPeriod) (today : Int) : Bool :=
  periods.any (fun p => p.on_change_with_state today == "open")

/-- Embeds `REGE.on_change_with_current_type` (rege.py lines 52-56): the type
of the first period with state `open`, `None` when there is none. -/
def REGE.on_change_with_current_type (periods : List REGEPeriod) (today : Int) :
    Option String :=
  (periods.find? (fun p => p.on_change_with_state today == "open")).map (fun p => p.type)

/-- Embeds `REGE.get_period_by_date` (rege.py lines 62-71): defaulting the
date to today, return the first period of the REGE containing it.  `d = none`
models calling it without a date. -/
def REGE.get_period_by_date (periods : List REGEPeriod) (today : Int) (d : Option Int) :
    Option REGEPeriod :=
  periods.find? (fun p => p.contains_date (d.getD today))

/-- Embeds `REGE.get_active_member_count` (rege.py lines 49-50):
`sum(1 for m in self.members if m.is_active) or None`, on the REGE's members. -/
def REGE.get_active_member_count (members : List REGEMember) (today : Int) : Option Nat :=
  let n := (members.filter (fun m => m.on_change_with_is_active today)).length
  if n = 0 then none else some n

/-- The operand actually built by `REGEMember.search_is_active` (rege.py line
285).  The source text is the Python chained comparison
`table.registration_date <= today <= exit_date`, which evaluates
`table.registration_date <= today` to a (truthy) python-sql expression object
and then returns `today <= exit_date`; the reflected operator turns that into
the SQL expression `Coalesce(exit_date, date.max) >= today`.  The
`registration_date` bound is therefore absent from the operand. -/
def REGEMember.search_is_active_operand (m : REGEMember) (today : Int) : Bool :=
  decide (today ≤ m.coalExit)

/-- Embeds `REGEMember.search_is_active` for a clause `(is_active, =, value)`:
the ids selected by `SELECT id WHERE operand = value`. -/
def REGEMember.search_is_active (table : List REGEMember) (today : Int) (value : Bool) :
    List Nat :=
  (table.filter (fun m => m.search_is_active_operand today == value)).map (fun m => m.id)

/-- The search domain used by `REGEMember.get_by_date` (rege.py lines 297-303)
evaluated at one row: same party, `registration_date <= date`, and
`exit_date` NULL or `exit_date >= date`. -/
def member_covers_query (party : Nat) (date : Int) (m : REGEMember) : Bool :=
  (m.party == party) && decide (m.registration_date ≤ date) &&
    (match m.exit_date with
     | none => true
     | some e => decide (e ≥ date))

/-- Embeds `REGEMember.get_by_date`: defaulting the date to today, search the
memberships of the party covering the date and return the first one (in the
model order of the table), or nothing when there is none. -/
def REGEMember.get_by_date (table : List REGEMember) (party : Nat) (today : Int)
    (d : Option Int) : Option REGEMember :=
  (table.filter (member_covers_query party (d.getD today))).head?

/-- Embeds `Party.get_rege_by_date` (party.py lines 11-17): the REGE (id) of
the membership returned by `REGEMember.get_by_date`, or `None`. -/
def Party.get_rege_by_date (table : List REGEMember) (party : Nat) (today : Int)
    (d : Option Int) : Option Nat :=
  (REGEMember.get_by_date table party today d).map (fun m => m.rege)

/-- The database state the invoice-line logic reads: the period and member
tables. -/
structure DB where
  periods : List REGEPeriod
  members : List REGEMember
deriving Repr

/-- The `periods` One2Many of the REGE with id `r`. -/
def DB.periodsOf (db : DB) (r : Nat) : List REGEPeriod :=
  db.periods.filter (fun p => p.rege == r)

/-- The fields of `account.invoice` read by `on_change_with_cost_price_show`. -/
structure Invoice where
  accounting_date : Option Int
  invoice_date : Option Int
deriving Repr, DecidableEq

/-- The field of `company.company` read by the invoice line: its party. -/
structure Company where
  party : Nat
deriving Repr, DecidableEq

/-- The fields of `account.invoice.line` read by the embedded methods.
`invoice_party` and `company` are `none` when the corresponding record is
missing; `cost_price` is a nullable Decimal, modelled as `Option Rat`. -/
structure InvoiceLine where
  company : Option Company
  invoice_party : Option Nat
  type : String
  invoice_type : String
  invoice : Option Invoice
  invoice_state : String
  cost_price : Option Rat
deriving Repr, DecidableEq

/-- The reference date of an invoice line's cost-price check (invoice.py
lines 65-66): `accounting_date or invoice_date or Date.today()`. -/
def invoice_tax_date (invoice : Invoice) (today : Int) : Int :=
  ((invoice.accounting_date).orElse (fun _ => invoice.invoice_date)).getD today

/-- Embeds `InvoiceLine.on_change_with_cost_price_show` (invoice.py lines
55-80), with the member and period tables supplied by `db` and `Date.today()`
by `today`. -/
def InvoiceLine.on_change_with_cost_price_show (db : DB) (today : Int)
    (line : InvoiceLine) : Bool :=
  match line.company, line.invoice_party, line.invoice with
  | some company, some invoice_party, some invoice =>
    if line.type != "line" || line.invoice_type == "in" then false
    else
      match Party.get_rege_by_date db.members invoice_party today
          (some (invoice_tax_date invoice today)),
        Party.get_rege_by_date db.members company.party today
          (some (invoice_tax_date invoice today)) with
      | some party_rege, some company_rege =>
        if party_rege != company_rege then false
        else
          match REGE.get_period_by_date (db.periodsOf party_rege) today
              (some (invoice_tax_date invoice today)) with
          | some period =>
            if period.type != "advanced" then false
            else if line.invoice_state != "draft" then line.cost_price.isSome
            else true
          | none => false
      | _, _ => false
  | _, _, _ => false

/-- One element of the `taxable_lines` list of `account.invoice.line`: a tuple
whose second component (`line[1]` in invoice.py line 46) is the unit-price
amount. -/
structure TaxableLine where
  taxes : List Nat
  unit_price : Rat
  quantity : Rat
  tax_date : Option Int
deriving Repr, DecidableEq

/-- Embeds the `InvoiceLine.taxable_lines` property (invoice.py lines 37-48):
start from the superclass's list; when `cost_price_show` is set and the list
is nonempty, decrease the unit-price component of its first element by
`cost_price or 0`. -/
def InvoiceLine.taxable_lines (super_lines : List TaxableLine) (cost_price : Option Rat)
    (cost_price_show : Bool) : List TaxableLine :=
  let cp := cost_price.getD 0
  if cost_price_show && !super_lines.isEmpty then
    match super_lines with
    | [] => super_lines
    | l :: rest => { l with unit_price := l.unit_price - cp } :: rest
  else super_lines

/-- Interval arithmetic behind both validators: for nonempty closed intervals
`[a, b]` and `[c, d]`, the three-disjunct condition of the SQL WHERE clause is
the standard nonempty-intersection predicate. -/
theorem three_disjunct_iff_intersect (a b c d : Int) (hab : a ≤ b) (hcd : c ≤ d) :
    ((a ≤ c ∧ b ≥ c) ∨ (a ≤ d ∧ b ≥ d) ∨ (a ≥ c ∧ b ≤ d)) ↔ (a ≤ d ∧ c ≤ b) := by
  omega

/-- Coalescing a nullable start to `date.min` and a nullable end to `date.max`
yields a nonempty interval whenever the stored dates are real calendar dates
and satisfy the check constraint. -/
theorem dateMin_le_dateMax : dateMin ≤ dateMax := by decide

theorem coal_le_of_bounds (s e : Option Int)
    (hs : ∀ x ∈ s, validDate x) (he : ∀ x ∈ e, validDate x)
    (hlt : ∀ x ∈ s, ∀ y ∈ e, x < y) :
    s.getD dateMin ≤ e.getD dateMax := by
  cases s with
  | none =>
    cases e with
    | none => exact dateMin_le_dateMax
    | some y =>
      have hy := he y (Option.mem_def.mpr rfl)
      simpa [Option.getD_some] using hy.1
  | some x =>
    have hx := hs x (Option.mem_def.mpr rfl)
    cases e with
    | none => simpa [Option.getD_some] using hx.2
    | some y =>
      have hxy := hlt x (Option.mem_def.mpr rfl) y (Option.mem_def.mpr rfl)
      simpa [Option.getD_some] using le_of_lt hxy

/-- A well-formed period's coalesced interval is nonempty. -/
theorem period_wf_coal_le (p : REGEPeriod) (h : p.wf) : p.coalStart ≤ p.coalEnd := by
  obtain ⟨hs, he, hlt⟩ := h
  exact coal_le_of_bounds p.start_date p.end_date hs he hlt

/-- A well-formed membership's coalesced interval is nonempty. -/
theorem member_wf_coal_le (m : REGEMember) (h : m.wf) :
    m.registration_date ≤ m.coalExit := by
  obtain ⟨hr, he, hlt⟩ := h
  unfold REGEMember.coalExit
  cases hce : m.exit_date with
  | none =>
    simpa [Option.getD_none] using hr.2
  | some y =>
    have hxy := hlt y (by rw [hce]; exact Option.mem_def.mpr rfl)
    simpa [Option.getD_some] using le_of_lt hxy

/-- The period validator's WHERE clause, on well-formed rows, is exactly: other
row, same REGE, nonempty intersection of the coalesced intervals. -/
theorem period_overlap_where_iff (o p : REGEPeriod) (ho : o.wf) (hp : p.wf) :
    period_overlap_where o p = true ↔
      (o.id ≠ p.id ∧ o.rege = p.rege ∧ o.coalStart ≤ p.coalEnd ∧ p.coalStart ≤ o.coalEnd) := by
  have h1 := period_wf_coal_le o ho
  have h2 := period_wf_coal_le p hp
  simp only [period_overlap_where, Bool.and_eq_true, Bool.or_eq_true, decide_eq_true_eq,
    bne_iff_ne, beq_iff_eq, ne_eq, ge_iff_le]
  omega

/-- The membership validator's WHERE clause, on well-formed rows, is exactly:
other row, same party, nonempty intersection of the coalesced intervals. -/
theorem member_overlap_where_iff (o r : REGEMember) (ho : o.wf) (hr : r.wf) :
    member_overlap_where o r = true ↔
      (o.id ≠ r.id ∧ o.party = r.party ∧ o.registration_date ≤ r.coalExit ∧
        r.registration_date ≤ o.coalExit) := by
  have h1 := member_wf_coal_le o ho
  have h2 := member_wf_coal_le r hr
  simp only [member_overlap_where, Bool.and_eq_true, Bool.or_eq_true, decide_eq_true_eq,
    bne_iff_ne, beq_iff_eq, ne_eq, ge_iff_le]
  omega

/-- The period validator returns normally exactly when the overlap query is
empty. -/
theorem period_check_ok_iff (table : List REGEPeriod) (p : REGEPeriod) :
    REGEPeriod.check_date_intervals table p = Except.ok () ↔
      ∀ o ∈ table, ¬ period_overlap_where o p = true := by
  rw [iff_comm, ← List.filter_eq_nil_iff]
  unfold REGEPeriod.check_date_intervals
  cases hf : table.filter (fun o => period_overlap_where o p) <;> simp [hf]

/-- The membership validator returns normally exactly when the overlap query
is empty. -/
theorem member_check_ok_iff (table : List REGEMember) (r : REGEMember) :
    REGEMember.check_date_intervals table r = Except.ok () ↔
      ∀ o ∈ table, ¬ member_overlap_where o r = true := by
  rw [iff_comm, ← List.filter_eq_nil_iff]
  unfold REGEMember.check_date_intervals
  cases hf : table.filter (fun o => member_overlap_where o r) <;> simp [hf]

/-- The period validator raises exactly when a row matches its WHERE clause. -/
theorem period_check_error_iff (table : List REGEPeriod) (p : REGEPeriod) :
    REGEPeriod.check_date_intervals table p = Except.error msg_period_overlap ↔
      ∃ o ∈ table, period_overlap_where o p = true := by
  have hfe : (∃ o ∈ table, period_overlap_where o p = true) ↔
      ¬ table.filter (fun o => period_overlap_where o p) = [] := by
    simp [List.filter_eq_nil_iff]
  rw [hfe]
  unfold REGEPeriod.check_date_intervals
  cases hf : table.filter (fun o => period_overlap_where o p) <;> simp [hf]

/-- The membership validator raises exactly when a row matches its WHERE
clause. -/
theorem member_check_error_iff (table : List REGEMember) (r : REGEMember) :
    REGEMember.check_date_intervals table r = Except.error msg_membership_overlap ↔
      ∃ o ∈ table, member_overlap_where o r = true := by
  have hfe : (∃ o ∈ table, member_overlap_where o r = true) ↔
      ¬ table.filter (fun o => member_overlap_where o r) = [] := by
    simp [List.filter_eq_nil_iff]
  rw [hfe]
  unfold REGEMember.check_date_intervals
  cases hf : table.filter (fun o => member_overlap_where o r) <;> simp [hf]

/-- C1: validating a REGE period raises a `UserError` if and only if another
period (different id) of the same REGE has a coalesced closed interval with a
nonempty intersection with the validated period's coalesced interval (the
standard predicate `other.start <= this.end and this.start <= other.end`);
when no such period exists the validator returns normally, leaving the state
unchanged.  The well-formedness hypotheses are the module's own check
constraints (`start_date < end_date` when both are set) plus the dates being
real calendar dates, which is what makes the three-disjunct WHERE clause agree
with the standard intersection predicate. -/
theorem C1_period_check_raises_iff_overlap (table : List REGEPeriod) (p : REGEPeriod)
    (hp : p.wf) (htab : ∀ o ∈ table, o.wf) :
    (REGEPeriod.check_date_intervals table p = Except.error msg_period_overlap ↔
      ∃ o ∈ table, o.id ≠ p.id ∧ o.rege = p.rege ∧
        o.coalStart ≤ p.coalEnd ∧ p.coalStart ≤ o.coalEnd) ∧
    ((¬ ∃ o ∈ table, o.id ≠ p.id ∧ o.rege = p.rege ∧
        o.coalStart ≤ p.coalEnd ∧ p.coalStart ≤ o.coalEnd) →
      REGEPeriod.check_date_intervals table p = Except.ok ()) := by
  have hiff := fun o (ho : o ∈ table) => period_overlap_where_iff o p (htab o ho) hp
  constructor
  · rw [period_check_error_iff]
    constructor
    · rintro ⟨o, ho, hw⟩
      exact ⟨o, ho, (hiff o ho).mp hw⟩
    · rintro ⟨o, ho, hw⟩
      exact ⟨o, ho, (hiff o ho).mpr hw⟩
  · intro hne
    rw [period_check_ok_iff]
    intro o ho hw
    exact hne ⟨o, ho, (hiff o ho).mp hw⟩

/-- Example period 100-200 of REGE 1, used by the C1 witness. -/
def p1ex : REGEPeriod :=
  { id := 1, rege := 1, type := "normal", start_date := some 100, end_date := some 200 }

/-- Example period 150-300 of REGE 1, overlapping `p1ex`, used by the C1 witness. -/
def p2ex : REGEPeriod :=
  { id := 2, rege := 1, type := "advanced", start_date := some 150, end_date := some 300 }

/-- Witness for C1 at a concrete overlapping pair of periods of the same REGE. -/
theorem C1_witness :
    p1ex.wf ∧ (∀ o ∈ [p2ex], o.wf) ∧
    ((REGEPeriod.check_date_intervals [p2ex] p1ex = Except.error msg_period_overlap ↔
      ∃ o ∈ [p2ex], o.id ≠ p1ex.id ∧ o.rege = p1ex.rege ∧
        o.coalStart ≤ p1ex.coalEnd ∧ p1ex.coalStart ≤ o.coalEnd) ∧
    ((¬ ∃ o ∈ [p2ex], o.id ≠ p1ex.id ∧ o.rege = p1ex.rege ∧
        o.coalStart ≤ p1ex.coalEnd ∧ p1ex.coalStart ≤ o.coalEnd) →
      REGEPeriod.check_date_intervals [p2ex] p1ex = Except.ok ())) :=
  ⟨by decide, by decide,
    C1_period_check_raises_iff_overlap [p2ex] p1ex (by decide) (by decide)⟩

/-- C2: validating a REGE membership raises a `UserError` if and only if
another membership (different id) of the same party — the REGE is not part of
the query — has a coalesced closed interval `[registration_date,
exit_date or date.max]` with a nonempty intersection with the validated
membership's coalesced interval.  Hypotheses are the module's check constraint
(`exit_date > registration_date` when set) plus the dates being real calendar
dates. -/
theorem C2_member_check_raises_iff_overlap (table : List REGEMember) (r : REGEMember)
    (hr : r.wf) (htab : ∀ o ∈ table, o.wf) :
    (REGEMember.check_date_intervals table r = Except.error msg_membership_overlap ↔
      ∃ o ∈ table, o.id ≠ r.id ∧ o.party = r.party ∧
        o.registration_date ≤ r.coalExit ∧ r.registration_date ≤ o.coalExit) ∧
    ((¬ ∃ o ∈ table, o.id ≠ r.id ∧ o.party = r.party ∧
        o.registration_date ≤ r.coalExit ∧ r.registration_date ≤ o.coalExit) →
      REGEMember.check_date_intervals table r = Except.ok ()) := by
  have hiff := fun o (ho : o ∈ table) => member_overlap_where_iff o r (htab o ho) hr
  constructor
  · rw [member_check_error_iff]
    constructor
    · rintro ⟨o, ho, hw⟩
      exact ⟨o, ho, (hiff o ho).mp hw⟩
    · rintro ⟨o, ho, hw⟩
      exact ⟨o, ho, (hiff o ho).mpr hw⟩
  · intro hne
    rw [member_check_ok_iff]
    intro o ho hw
    exact hne ⟨o, ho, (hiff o ho).mp hw⟩

/-- Example membership of party 7 on REGE 1, used by the C2 witness. -/
def m1ex : REGEMember :=
  { id := 1, rege := 1, party := 7, registration_date := 100, exit_date := some 200 }

/-- Example membership of party 7 on a different REGE, still overlapping
`m1ex` (its exit date is open), used by the C2 witness. -/
def m2ex : REGEMember :=
  { id := 2, rege := 3, party := 7, registration_date := 150, exit_date := none }

/-- Witness for C2 at a concrete overlapping pair of memberships of the same
party on different REGEs. -/
theorem C2_witness :
    m1ex.wf ∧ (∀ o ∈ [m2ex], o.wf) ∧
    ((REGEMember.check_date_intervals [m2ex] m1ex = Except.error msg_membership_overlap ↔
      ∃ o ∈ [m2ex], o.id ≠ m1ex.id ∧ o.party = m1ex.party ∧
        o.registration_date ≤ m1ex.coalExit ∧ m1ex.registration_date ≤ o.coalExit) ∧
    ((¬ ∃ o ∈ [m2ex], o.id ≠ m1ex.id ∧ o.party = m1ex.party ∧
        o.registration_date ≤ m1ex.coalExit ∧ m1ex.registration_date ≤ o.coalExit) →
      REGEMember.check_date_intervals [m2ex] m1ex = Except.ok ())) :=
  ⟨by decide, by decide,
    C2_member_check_raises_iff_overlap [m2ex] m1ex (by decide) (by decide)⟩

/-- C5: `on_change_with_state` always returns one of `open`/`closed`/
`scheduled`; it returns `open` exactly when today lies in the coalesced closed
interval, otherwise `scheduled` exactly when the coalesced start is strictly
after today, and `closed` in the remaining case. -/
theorem C5_period_state (p : REGEPeriod) (today : Int) :
    (p.on_change_with_state today = "open" ∨ p.on_change_with_state today = "closed" ∨
      p.on_change_with_state today = "scheduled") ∧
    (p.on_change_with_state today = "open" ↔ p.coalStart ≤ today ∧ today ≤ p.coalEnd) ∧
    (p.on_change_with_state today = "scheduled" ↔
      ¬(p.coalStart ≤ today ∧ today ≤ p.coalEnd) ∧ p.coalStart > today) ∧
    (p.on_change_with_state today = "closed" ↔
      ¬(p.coalStart ≤ today ∧ today ≤ p.coalEnd) ∧ ¬(p.coalStart > today)) := by
  have hc : (p.contains_date today = true) ↔ (p.coalStart ≤ today ∧ today ≤ p.coalEnd) := by
    simp [REGEPeriod.contains_date]
  have hs : p.start_date.getD dateMin = p.coalStart := rfl
  unfold REGEPeriod.on_change_with_state
  rw [hs]
  by_cases h1 : p.contains_date today = true
  · rw [if_pos h1]
    have hcc := hc.mp h1
    refine ⟨Or.inl rfl, iff_of_true rfl hcc, ?_, ?_⟩
    · exact iff_of_false (by decide) (fun h => h.1 hcc)
    · exact iff_of_false (by decide) (fun h => h.1 hcc)
  · rw [if_neg h1]
    have hnc : ¬(p.coalStart ≤ today ∧ today ≤ p.coalEnd) := fun h => h1 (hc.mpr h)
    by_cases h2 : p.coalStart > today
    · rw [if_pos h2]
      refine ⟨Or.inr (Or.inr rfl), ?_, iff_of_true rfl ⟨hnc, h2⟩, ?_⟩
      · exact iff_of_false (by decide) (fun h => hnc h)
      · exact iff_of_false (by decide) (fun h => h.2 h2)
    · rw [if_neg h2]
      refine ⟨Or.inr (Or.inl rfl), ?_, ?_, iff_of_true rfl ⟨hnc, h2⟩⟩
      · exact iff_of_false (by decide) (fun h => hnc h)
      · exact iff_of_false (by decide) (fun h => h2 h.2)

/-- Witness for C5: `p1ex` (interval 100-200) is `open` on day 150. -/
theorem C5_witness :
    (REGEPeriod.on_change_with_state p1ex 150 = "open" ∨
      REGEPeriod.on_change_with_state p1ex 150 = "closed" ∨
      REGEPeriod.on_change_with_state p1ex 150 = "scheduled") ∧
    (REGEPeriod.on_change_with_state p1ex 150 = "open" ↔
      p1ex.coalStart ≤ 150 ∧ (150 : Int) ≤ p1ex.coalEnd) ∧
    (REGEPeriod.on_change_with_state p1ex 150 = "scheduled" ↔
      ¬(p1ex.coalStart ≤ 150 ∧ (150 : Int) ≤ p1ex.coalEnd) ∧ p1ex.coalStart > 150) ∧
    (REGEPeriod.on_change_with_state p1ex 150 = "closed" ↔
      ¬(p1ex.coalStart ≤ 150 ∧ (150 : Int) ≤ p1ex.coalEnd) ∧ ¬(p1ex.coalStart > 150)) :=
  C5_period_state p1ex 150

/-- C6: a membership is active exactly when
`registration_date <= today <= (exit_date or date.max)`; a REGE is active
exactly when one of its periods has state `open`; and its `current_type` is
`none` exactly when no period is open, and `some t` exactly when the first
open period in the periods order has type `t`. -/
theorem C6_active_and_current_type (m : REGEMember) (periods : List REGEPeriod)
    (today : Int) :
    (m.on_change_with_is_active today = true ↔
      m.registration_date ≤ today ∧ today ≤ m.coalExit) ∧
    (REGE.on_change_with_is_active periods today = true ↔
      ∃ p ∈ periods, p.on_change_with_state today = "open") ∧
    (REGE.on_change_with_current_type periods today = none ↔
      ∀ p ∈ periods, p.on_change_with_state today ≠ "open") ∧
    (∀ t, REGE.on_change_with_current_type periods today = some t ↔
      ∃ pre p post, periods = pre ++ p :: post ∧
        p.on_change_with_state today = "open" ∧ p.type = t ∧
        ∀ q ∈ pre, q.on_change_with_state today ≠ "open") := by
  refine ⟨?_, ?_, ?_, ?_⟩
  · simp [REGEMember.on_change_with_is_active]
  · simp [REGE.on_change_with_is_active, List.any_eq_true]
  · simp [REGE.on_change_with_current_type, Option.map_eq_none', List.find?_eq_none]
  · intro t
    simp only [REGE.on_change_with_current_type, Option.map_eq_some']
    constructor
    · rintro ⟨p, hfind, htype⟩
      rw [List.find?_eq_some] at hfind
      obtain ⟨hp, pre, post, heq, hpre⟩ := hfind
      refine ⟨pre, p, post, heq, by simpa using hp, htype, ?_⟩
      intro q hq
      have := hpre q hq
      simpa using this
    · rintro ⟨pre, p, post, heq, hopen, htype, hpre⟩
      refine ⟨p, ?_, htype⟩
      rw [List.find?_eq_some]
      refine ⟨by simpa using hopen, pre, post, heq, ?_⟩
      intro q hq
      simpa using hpre q hq

/-- Witness for C6 at `m1ex` and the two example periods on day 150: the
membership is active, the REGE is active and its current type is that of
`p1ex`, the first open period. -/
theorem C6_witness :
    ((REGEMember.on_change_with_is_active m1ex 150 = true ↔
      m1ex.registration_date ≤ 150 ∧ (150 : Int) ≤ m1ex.coalExit) ∧
    (REGE.on_change_with_is_active [p1ex, p2ex] 150 = true ↔
      ∃ p ∈ [p1ex, p2ex], p.on_change_with_state 150 = "open") ∧
    (REGE.on_change_with_current_type [p1ex, p2ex] 150 = none ↔
      ∀ p ∈ [p1ex, p2ex], p.on_change_with_state 150 ≠ "open") ∧
    (∀ t, REGE.on_change_with_current_type [p1ex, p2ex] 150 = some t ↔
      ∃ pre p post, [p1ex, p2ex] = pre ++ p :: post ∧
        p.on_change_with_state 150 = "open" ∧ p.type = t ∧
        ∀ q ∈ pre, q.on_change_with_state 150 ≠ "open")) :=
  C6_active_and_current_type m1ex [p1ex, p2ex] 150

/-- A membership of `party` covering `date`, stated the way the claims state
it: `registration_date <= date` and the exit date NULL or at least `date`. -/
def covers_spec (party : Nat) (date : Int) (m : REGEMember) : Prop :=
  m.party = party ∧ m.registration_date ≤ date ∧
    (m.exit_date = none ∨ ∃ e, m.exit_date = some e ∧ date ≤ e)

instance (party : Nat) (date : Int) (m : REGEMember) :
    Decidable (covers_spec party date m) := by
  unfold covers_spec; infer_instance

/-- The search domain of `get_by_date` selects exactly the covering
memberships. -/
theorem member_covers_query_iff (party : Nat) (date : Int) (m : REGEMember) :
    member_covers_query party date m = true ↔ covers_spec party date m := by
  cases hce : m.exit_date <;>
    simp [member_covers_query, covers_spec, hce, and_assoc]

/-- C7: `get_by_date` returns nothing exactly when the party has no membership
covering the date (defaulted to today), and otherwise returns a covering
membership of the party; consequently `get_rege_by_date` returns `None`
exactly in the first case and otherwise the REGE of a covering membership. -/
theorem C7_get_by_date (table : List REGEMember) (party : Nat) (today : Int)
    (d : Option Int) :
    (REGEMember.get_by_date table party today d = none ↔
      ∀ m ∈ table, ¬ covers_spec party (d.getD today) m) ∧
    (∀ m, REGEMember.get_by_date table party today d = some m →
      m ∈ table ∧ covers_spec party (d.getD today) m) ∧
    (Party.get_rege_by_date table party today d = none ↔
      ∀ m ∈ table, ¬ covers_spec party (d.getD today) m) ∧
    (∀ r, Party.get_rege_by_date table party today d = some r →
      ∃ m, m ∈ table ∧ covers_spec party (d.getD today) m ∧ m.rege = r) := by
  have hq := fun m => member_covers_query_iff party (d.getD today) m
  have hnone : REGEMember.get_by_date table party today d = none ↔
      ∀ m ∈ table, ¬ covers_spec party (d.getD today) m := by
    unfold REGEMember.get_by_date
    rw [List.head?_eq_none_iff, List.filter_eq_nil_iff]
    constructor
    · intro h m hm hc
      exact h m hm ((hq m).mpr hc)
    · intro h m hm hc
      exact h m hm ((hq m).mp hc)
  have hsome : ∀ m, REGEMember.get_by_date table party today d = some m →
      m ∈ table ∧ covers_spec party (d.getD today) m := by
    intro m hm
    unfold REGEMember.get_by_date at hm
    rw [List.head?_eq_some_iff] at hm
    obtain ⟨ys, hys⟩ := hm
    have hmem : m ∈ table.filter (member_covers_query party (d.getD today)) := by
      rw [hys]
      exact List.mem_cons_self m ys
    rw [List.mem_filter] at hmem
    exact ⟨hmem.1, (hq m).mp hmem.2⟩
  refine ⟨hnone, hsome, ?_, ?_⟩
  · unfold Party.get_rege_by_date
    rw [Option.map_eq_none']
    exact hnone
  · intro r hr
    unfold Party.get_rege_by_date at hr
    rw [Option.map_eq_some'] at hr
    obtain ⟨m, hm, hrege⟩ := hr
    obtain ⟨hmem, hcov⟩ := hsome m hm
    exact ⟨m, hmem, hcov, hrege⟩

/-- Witness for C7 at the singleton table `[m1ex]`, party 7, day 150, no date
given (so today is used). -/
theorem C7_witness :
    ((REGEMember.get_by_date [m1ex] 7 150 none = none ↔
      ∀ m ∈ [m1ex], ¬ covers_spec 7 ((none : Option Int).getD 150) m) ∧
    (∀ m, REGEMember.get_by_date [m1ex] 7 150 none = some m →
      m ∈ [m1ex] ∧ covers_spec 7 ((none : Option Int).getD 150) m) ∧
    (Party.get_rege_by_date [m1ex] 7 150 none = none ↔
      ∀ m ∈ [m1ex], ¬ covers_spec 7 ((none : Option Int).getD 150) m) ∧
    (∀ r, Party.get_rege_by_date [m1ex] 7 150 none = some r →
      ∃ m, m ∈ [m1ex] ∧ covers_spec 7 ((none : Option Int).getD 150) m ∧ m.rege = r)) :=
  C7_get_by_date [m1ex] 7 150 none

/-- C10: the active-member count is `None` — never `0` — exactly when no
member is active today, and otherwise the positive number of active members. -/
theorem C10_active_member_count (members : List REGEMember) (today : Int) :
    (REGE.get_active_member_count members today = none ↔
      ∀ m ∈ members, ¬ m.on_change_with_is_active today = true) ∧
    REGE.get_active_member_count members today ≠ some 0 ∧
    (∀ n, REGE.get_active_member_count members today = some n →
      0 < n ∧
        n = (members.filter (fun m => m.on_change_with_is_active today)).length) := by
  simp only [REGE.get_active_member_count]
  by_cases h : (members.filter (fun m => m.on_change_with_is_active today)).length = 0
  · rw [if_pos h]
    rw [List.length_eq_zero, List.filter_eq_nil_iff] at h
    refine ⟨iff_of_true rfl h, by simp, ?_⟩
    intro n hn
    exact Option.noConfusion hn
  · rw [if_neg h]
    refine ⟨iff_of_false (by simp) ?_, ?_, ?_⟩
    · intro hforall
      exact h (by rw [List.length_eq_zero, List.filter_eq_nil_iff]; exact hforall)
    · intro hc
      rw [Option.some_inj] at hc
      exact h hc
    · intro n hn
      rw [Option.some_inj] at hn
      exact ⟨hn ▸ Nat.pos_of_ne_zero h, hn.symm⟩

/-- Witness for C10 at the one-member table `[m1ex]` on day 150 (where the
member is active). -/
theorem C10_witness :
    ((REGE.get_active_member_count [m1ex] 150 = none ↔
      ∀ m ∈ [m1ex], ¬ m.on_change_with_is_active 150 = true) ∧
    REGE.get_active_member_count [m1ex] 150 ≠ some 0 ∧
    (∀ n, REGE.get_active_member_count [m1ex] 150 = some n →
      0 < n ∧
        n = (List.filter (fun m => m.on_change_with_is_active 150) [m1ex]).length)) :=
  C10_active_member_count [m1ex] 150

/-- C4: `taxable_lines` is the superclass list, except that when
`cost_price_show` is set and the list is nonempty the unit-price component of
the first element is decreased by `cost_price` (`None` counting as `0`); the
other components of the first element, all other elements, and the length are
unchanged. -/
theorem C4_taxable_lines (super_lines : List TaxableLine) (cost_price : Option Rat)
    (cost_price_show : Bool) :
    (∀ l ls, cost_price_show = true → super_lines = l :: ls →
      InvoiceLine.taxable_lines super_lines cost_price cost_price_show =
        { l with unit_price := l.unit_price - cost_price.getD 0 } :: ls) ∧
    (cost_price_show = false →
      InvoiceLine.taxable_lines super_lines cost_price cost_price_show = super_lines) ∧
    (super_lines = [] →
      InvoiceLine.taxable_lines super_lines cost_price cost_price_show = super_lines) ∧
    (InvoiceLine.taxable_lines super_lines cost_price cost_price_show).length =
      super_lines.length := by
  refine ⟨?_, ?_, ?_, ?_⟩
  · intro l ls hshow heq
    subst hshow
    subst heq
    simp [InvoiceLine.taxable_lines]
  · intro hshow
    subst hshow
    simp [InvoiceLine.taxable_lines]
  · intro heq
    subst heq
    simp [InvoiceLine.taxable_lines]
  · cases cost_price_show <;> cases super_lines <;> simp [InvoiceLine.taxable_lines]

/-- Example taxable line with unit-price amount 10, used by the C4 witness. -/
def tl1ex : TaxableLine :=
  { taxes := [1], unit_price := 10, quantity := 2, tax_date := none }

/-- Witness for C4: with `cost_price 3` shown, the single taxable line's
unit-price amount drops by 3. -/
theorem C4_witness :
    InvoiceLine.taxable_lines [tl1ex] (some 3) true =
      [{ tl1ex with unit_price := tl1ex.unit_price - (some (3 : Rat)).getD 0 }] :=
  (C4_taxable_lines [tl1ex] (some 3) true).1 tl1ex [] rfl rfl

/-- Membership of party 9 registering on day 151, used to exhibit the
`search_is_active` divergence. -/
def m3ex : REGEMember :=
  { id := 3, rege := 1, party := 9, registration_date := 151, exit_date := none }

/-- C9: on day 150, the searcher for `is_active = True` selects the membership
`m3ex`, whose registration date is still in the future, while the getter
`on_change_with_is_active` reports it inactive.  The searcher's operand
dropped the `registration_date <= today` bound (Python chained comparison on
python-sql expressions), so it is not equivalent to the getter. -/
theorem C9_search_is_active_divergence :
    REGEMember.search_is_active [m3ex] 150 true = [3] ∧
    REGEMember.on_change_with_is_active m3ex 150 = false := by
  constructor
  · rfl
  · decide

/-- A covering membership's coalesced interval contains the date, provided the
date is a real calendar date. -/
theorem covers_spec_le (m : REGEMember) (party : Nat) (d : Int)
    (hc : covers_spec party d m) (hd : validDate d) :
    m.registration_date ≤ d ∧ d ≤ m.coalExit := by
  obtain ⟨hp, hr, he⟩ := hc
  refine ⟨hr, ?_⟩
  unfold REGEMember.coalExit
  rcases he with hnone | ⟨e, hee, hde⟩
  · rw [hnone]
    simpa using hd.2
  · rw [hee]
    simpa using hde

/-- C8: in a state where every stored membership passes
`check_date_intervals`, a party has at most one membership covering any given
date (across all REGEs, since the validator compares only by party), so
`get_by_date` returns exactly the covering membership and `get_rege_by_date`
its REGE.  `hnodup` states that ids are primary keys; `hwf` the check
constraints; `hd` that the date is a real calendar date. -/
theorem C8_unique_covering (members : List REGEMember)
    (hnodup : (members.map (fun m => m.id)).Nodup)
    (hwf : ∀ m ∈ members, m.wf)
    (hchk : ∀ m ∈ members, REGEMember.check_date_intervals members m = Except.ok ())
    (party : Nat) (d : Int) (hd : validDate d) :
    (∀ m1 ∈ members, ∀ m2 ∈ members, covers_spec party d m1 → covers_spec party d m2 →
      m1 = m2) ∧
    (∀ today, ∀ m ∈ members, covers_spec party d m →
      REGEMember.get_by_date members party today (some d) = some m ∧
      Party.get_rege_by_date members party today (some d) = some m.rege) := by
  have huniq : ∀ m1 ∈ members, ∀ m2 ∈ members, covers_spec party d m1 →
      covers_spec party d m2 → m1 = m2 := by
    intro m1 hm1 m2 hm2 hc1 hc2
    by_contra hne
    have hid : m2.id ≠ m1.id := fun h =>
      hne (List.inj_on_of_nodup_map hnodup hm1 hm2 h.symm)
    have h1 := covers_spec_le m1 party d hc1 hd
    have h2 := covers_spec_le m2 party d hc2 hd
    have hok := (member_check_ok_iff members m1).mp (hchk m1 hm1) m2 hm2
    apply hok
    rw [member_overlap_where_iff m2 m1 (hwf m2 hm2) (hwf m1 hm1)]
    exact ⟨hid, hc2.1.trans hc1.1.symm, h2.1.trans h1.2, h1.1.trans h2.2⟩
  refine ⟨huniq, ?_⟩
  intro today m hm hc
  have hgbd : REGEMember.get_by_date members party today (some d) = some m := by
    unfold REGEMember.get_by_date
    simp only [Option.getD_some]
    have hmf : m ∈ members.filter (member_covers_query party d) := by
      rw [List.mem_filter]
      exact ⟨hm, (member_covers_query_iff party d m).mpr hc⟩
    cases hf : members.filter (member_covers_query party d) with
    | nil =>
      rw [hf] at hmf
      exact absurd hmf (List.not_mem_nil m)
    | cons a l =>
      rw [hf] at hmf
      have ha : a ∈ members.filter (member_covers_query party d) := by
        rw [hf]
        exact List.mem_cons_self a l
      rw [List.mem_filter] at ha
      have ham : a = m :=
        huniq a ha.1 m hm ((member_covers_query_iff party d a).mp ha.2) hc
      simp [ham]
  refine ⟨hgbd, ?_⟩
  unfold Party.get_rege_by_date
  rw [hgbd]
  rfl

/-- Witness for C8 at the singleton table `[m1ex]` on day 150. -/
theorem C8_witness :
    ((List.map (fun m => m.id) [m1ex]).Nodup ∧ (∀ m ∈ [m1ex], m.wf) ∧
    (∀ m ∈ [m1ex], REGEMember.check_date_intervals [m1ex] m = Except.ok ()) ∧
    validDate 150) ∧
    ((∀ m1 ∈ [m1ex], ∀ m2 ∈ [m1ex], covers_spec 7 150 m1 → covers_spec 7 150 m2 →
      m1 = m2) ∧
    (∀ today, ∀ m ∈ [m1ex], covers_spec 7 150 m →
      REGEMember.get_by_date [m1ex] 7 today (some 150) = some m ∧
      Party.get_rege_by_date [m1ex] 7 today (some 150) = some m.rege)) := by
  have hchk : ∀ m ∈ [m1ex], REGEMember.check_date_intervals [m1ex] m = Except.ok () := by
    intro m hm
    rw [List.mem_singleton] at hm
    subst hm
    rfl
  exact ⟨⟨by decide, by decide, hchk, by decide⟩,
    C8_unique_covering [m1ex] (by decide) (by decide) hchk 7 150 (by decide)⟩

/-- Invoice line on a posted invoice with a cost price set but no company,
used to refute the unguarded reading of the cost-price-show claim. -/
def line_no_company_ex : InvoiceLine :=
  { company := none, invoice_party := some 2, type := "line",
    invoice_type := "out", invoice := none, invoice_state := "posted",
    cost_price := some 5 }

/-- C3 counterexample: the claim's final clause read on its own — whenever the
invoice is not in `draft` state the method returns `True` exactly when
`cost_price` is set — is false: on a posted line with a cost price but no
company the method returns `False`. -/
theorem C3_counterexample :
    ¬ (∀ (db : DB) (today : Int) (line : InvoiceLine), line.invoice_state ≠ "draft" →
      (InvoiceLine.on_change_with_cost_price_show db today line = true ↔
        line.cost_price ≠ none)) := by
  intro h
  have h2 := (h { periods := [], members := [] } 150 line_no_company_ex
      (by decide)).mpr (by decide)
  exact absurd h2 (by decide)

/-- C3 (amended): `on_change_with_cost_price_show` returns `True` exactly when
the company, invoice party and invoice are present, the line type is `line`,
the invoice type is not `in`, both parties' REGE lookups at the reference date
return the same REGE, that REGE's period at that date exists and has type
`advanced`, and either the invoice is in `draft` state or `cost_price` is
set.  This packages the claim's "only if" conditions, its list of
`False`-cases, and — as forced by the counterexample — its last clause scoped
to the case where all earlier checks pass. -/
theorem C3_cost_price_show_iff (db : DB) (today : Int) (line : InvoiceLine) :
    InvoiceLine.on_change_with_cost_price_show db today line = true ↔
      ∃ c, line.company = some c ∧ ∃ ip, line.invoice_party = some ip ∧
        line.type = "line" ∧ line.invoice_type ≠ "in" ∧
        ∃ inv, line.invoice = some inv ∧
        ∃ r, Party.get_rege_by_date db.members ip today
            (some (invoice_tax_date inv today)) = some r ∧
          Party.get_rege_by_date db.members c.party today
            (some (invoice_tax_date inv today)) = some r ∧
        ∃ per, REGE.get_period_by_date (db.periodsOf r) today
            (some (invoice_tax_date inv today)) = some per ∧
          per.type = "advanced" ∧
          (line.invoice_state = "draft" ∨ line.cost_price ≠ none) := by
  cases hco : line.company with
  | none => simp [InvoiceLine.on_change_with_cost_price_show, hco]
  | some c =>
    cases hip : line.invoice_party with
    | none => simp [InvoiceLine.on_change_with_cost_price_show, hco, hip]
    | some ip =>
      cases hin : line.invoice with
      | none => simp [InvoiceLine.on_change_with_cost_price_show, hco, hip, hin]
      | some inv =>
        simp only [InvoiceLine.on_change_with_cost_price_show, hco, hip, hin,
          Option.some.injEq, exists_eq_left, exists_eq_left']
        by_cases hty : line.type = "line"
        · by_cases hity : line.invoice_type = "in"
          · have hg : (line.type != "line" || line.invoice_type == "in") = true := by
              simp [hity]
            rw [if_pos hg]
            refine iff_of_false (by simp) ?_
            rintro ⟨-, h, -⟩
            exact absurd hity h
          · have hg : ¬ ((line.type != "line" || line.invoice_type == "in") = true) := by
              simp [hty, hity]
            rw [if_neg hg]
            cases hpr : Party.get_rege_by_date db.members ip today
                (some (invoice_tax_date inv today)) with
            | none =>
              simp only [hpr]
              refine iff_of_false (by simp) ?_
              rintro ⟨-, -, r, hr1, -⟩
              exact Option.noConfusion hr1
            | some pr =>
              cases hcr : Party.get_rege_by_date db.members c.party today
                  (some (invoice_tax_date inv today)) with
              | none =>
                simp only [hpr, hcr]
                refine iff_of_false (by simp) ?_
                rintro ⟨-, -, r, hr1, hr2, -⟩
                exact Option.noConfusion hr2
              | some cr =>
                simp only [hpr, hcr]
                by_cases hpc : pr = cr
                · subst hpc
                  have hne : ¬ ((pr != pr) = true) := by simp
                  rw [if_neg hne]
                  cases hper : REGE.get_period_by_date (db.periodsOf pr) today
                      (some (invoice_tax_date inv today)) with
                  | none =>
                    simp only [hper]
                    refine iff_of_false (by simp) ?_
                    rintro ⟨-, -, r, hr1, hr2, p1, hp1, -⟩
                    injection hr1 with hr1
                    subst hr1
                    rw [hper] at hp1
                    exact Option.noConfusion hp1
                  | some per =>
                    simp only [hper]
                    by_cases hadv : per.type = "advanced"
                    · have hg2 : ¬ ((per.type != "advanced") = true) := by simp [hadv]
                      rw [if_neg hg2]
                      by_cases hst : line.invoice_state = "draft"
                      · have hg3 : ¬ ((line.invoice_state != "draft") = true) := by
                          simp [hst]
                        rw [if_neg hg3]
                        exact iff_of_true rfl
                          ⟨hty, hity, pr, rfl, rfl, per, hper, hadv, Or.inl hst⟩
                      · have hg3 : (line.invoice_state != "draft") = true := by
                          simp [hst]
                        rw [if_pos hg3]
                        constructor
                        · intro hcp
                          exact ⟨hty, hity, pr, rfl, rfl, per, hper, hadv,
                            Or.inr (Option.ne_none_iff_isSome.mpr hcp)⟩
                        · rintro ⟨-, -, r, hr1, hr2, p1, hp1, hp1t, hlast⟩
                          rcases hlast with hdraft | hcp
                          · exact absurd hdraft hst
                          · exact Option.ne_none_iff_isSome.mp hcp
                    · have hg2 : (per.type != "advanced") = true := by simp [hadv]
                      rw [if_pos hg2]
                      refine iff_of_false (by simp) ?_
                      rintro ⟨-, -, r, hr1, hr2, p1, hp1, hp1t, -⟩
                      injection hr1 with hr1
                      subst hr1
                      rw [hper] at hp1
                      injection hp1 with hp1
                      subst hp1
                      exact absurd hp1t hadv
                · have hne : (pr != cr) = true := by simp [hpc]
                  rw [if_pos hne]
                  refine iff_of_false (by simp) ?_
                  rintro ⟨-, -, r, hr1, hr2, -⟩
                  injection hr1 with hr1
                  injection hr2 with hr2
                  exact absurd (hr1.trans hr2.symm) hpc
        · have hg : (line.type != "line" || line.invoice_type == "in") = true := by
            simp [hty]
          rw [if_pos hg]
          refine iff_of_false (by simp) ?_
          rintro ⟨h, -⟩
          exact hty h

/-- Advanced period of REGE 1 covering days 100-200, used by the C3 witness. -/
def per3ex : REGEPeriod :=
  { id := 10, rege := 1, type := "advanced", start_date := some 100, end_date := some 200 }

/-- Membership of the company's party 8 on REGE 1, used by the C3 witness. -/
def m4ex : REGEMember :=
  { id := 4, rege := 1, party := 8, registration_date := 100, exit_date := none }

/-- Database for the C3 witness: REGE 1 has an advanced period and both the
invoice party 7 and the company party 8 are members. -/
def db3ex : DB :=
  { periods := [per3ex], members := [m1ex, m4ex] }

/-- Draft customer invoice line between parties 7 and 8, used by the C3
witness. -/
def line3ex : InvoiceLine :=
  { company := some { party := 8 }, invoice_party := some 7, type := "line",
    invoice_type := "out",
    invoice := some { accounting_date := none, invoice_date := some 150 },
    invoice_state := "draft", cost_price := none }

/-- Witness for the amended C3 at a concrete draft line whose parties share an
advanced REGE on the invoice date. -/
theorem C3_witness :
    InvoiceLine.on_change_with_cost_price_show db3ex 150 line3ex = true ↔
      ∃ c, line3ex.company = some c ∧ ∃ ip, line3ex.invoice_party = some ip ∧
        line3ex.type = "line" ∧ line3ex.invoice_type ≠ "in" ∧
        ∃ inv, line3ex.invoice = some inv ∧
        ∃ r, Party.get_rege_by_date db3ex.members ip 150
            (some (invoice_tax_date inv 150)) = some r ∧
          Party.get_rege_by_date db3ex.members c.party 150
            (some (invoice_tax_date inv 150)) = some r ∧
        ∃ per, REGE.get_period_by_date (db3ex.periodsOf r) 150
            (some (invoice_tax_date inv 150)) = some per ∧
          per.type = "advanced" ∧
          (line3ex.invoice_state = "draft" ∨ line3ex.cost_price ≠ none) :=
  C3_cost_price_show_iff db3ex 150 line3ex
